import Mathlib

/-!
Verification of the job-processing subsystem of the `nexusleads` repository
(`jobs/job_processor.py`, `jobs/billing_service.py`) against its
natural-language specification.

The Python code is shallowly embedded: database tables become Lean lists of
records, SQLAlchemy row mutations become functional record updates, timestamps
become natural numbers, `DECIMAL` money amounts become rationals, and the
nondeterministic environment (external adapters, concurrent cancellation
writes, database faults) is passed in as explicit oracle parameters.
-/

/-- Job lifecycle states (`sourcing_jobs.status`). -/
inductive JobStatus where
  | pending
  | running
  | completed
  | failed
  | cancelled
  | out_of_credits
deriving DecidableEq, Repr

/-- The four job types dispatched by `process_job`. -/
inductive JobType where
  | repository_sourcing
  | social_enrichment
  | stargazer_analysis
  | clay_push
deriving DecidableEq, Repr

/-- Progress-step states (`job_progress.status`). -/
inductive StepStatus where
  | pending
  | running
  | completed
  | failed
deriving DecidableEq, Repr

/-- A row of the `sourcing_jobs` table (the fields the scheduler touches). -/
structure SourcingJob where
  id : Nat
  jobType : JobType
  status : JobStatus
  createdAt : Nat
  startedAt : Option Nat
  completedAt : Option Nat
  totalSteps : Nat
  currentStep : Nat
  progressPercentage : ℚ
  errorMessage : Option String
deriving DecidableEq, Repr

/-- A row of the `job_progress` table. -/
structure JobProgress where
  jobId : Nat
  stepNumber : Nat
  stepName : String
  status : StepStatus
  message : Option String
  errorMessage : Option String
  startedAt : Option Nat
  completedAt : Option Nat
deriving DecidableEq, Repr

/-- The `status = 'running'` / `started_at` transition applied to each claimed
job inside `claim_pending_jobs` (`job.status = 'running'; if not
job.started_at: job.started_at = now`). -/
def markRunning (now : Nat) (j : SourcingJob) : SourcingJob :=
  { j with
    status := .running
    startedAt := match j.startedAt with
      | none => some now
      | some t => some t }

/-- `JobProcessor.claim_pending_jobs`: compute the budget
`available = max(0, MAX_CONCURRENT_JOBS - len(self.running_jobs))`, select up
to `available` jobs with `status = 'pending'` ordered by `created_at`
(the locking read is serialized, so the claiming process sees the table as a
plain list), transition them to `running`, commit, and return them.
Returns the claimed jobs and the committed table. -/
def claim_pending_jobs (maxConcurrentJobs runningJobsCount now : Nat)
    (db : List SourcingJob) : List SourcingJob × List SourcingJob :=
  let available : Nat := (max 0 ((maxConcurrentJobs : Int) - (runningJobsCount : Int))).toNat
  if available = 0 then ([], db)
  else
    let selected :=
      (List.insertionSort (fun a b => a.createdAt ≤ b.createdAt)
        (db.filter (fun j => j.status = .pending))).take available
    if selected.isEmpty then ([], db)
    else
      let ids := selected.map (fun j => j.id)
      (selected.map (markRunning now),
       db.map (fun j => if ids.contains j.id then markRunning now j else j))

/-- `JobProcessor.recover_orphaned_jobs`: every job still in `running` is reset
to `pending` with `started_at` cleared and progress counters zeroed, and its
`job_progress` rows are deleted; nothing else is touched. -/
def recover_orphaned_jobs (db : List SourcingJob) (steps : List JobProgress) :
    List SourcingJob × List JobProgress :=
  let orphanIds := (db.filter (fun j => j.status = .running)).map (fun j => j.id)
  (db.map (fun j =>
      if j.status = .running then
        { j with status := .pending, startedAt := none,
                 progressPercentage := 0, currentStep := 0 }
      else j),
   steps.filter (fun s => ¬ orphanIds.contains s.jobId))

/-- The fixed message written by `mark_job_cancelled`. -/
def cancelledByUser : String := "Cancelled by user"

/-- `JobProcessor.create_progress_step`: insert a `job_progress` row in
status `pending`. -/
def create_progress_step (jobId stepNumber : Nat) (stepName : String) : JobProgress :=
  ⟨jobId, stepNumber, stepName, .pending, none, none, none, none⟩

/-- `JobProcessor.update_progress_step`: set the new status, copy a truthy
`message` (Python `if message:` skips both `None` and the empty string) and
mirror it into `error_message` when the status is `failed`, and stamp
`started_at` on entering `running` and `completed_at` on entering a terminal
status. -/
def update_progress_step (now : Nat) (p : JobProgress) (status : StepStatus)
    (message : Option String) : JobProgress :=
  let p1 := { p with status := status }
  let p2 := match message with
    | some m =>
        if m = "" then p1
        else if status = .failed then { p1 with message := some m, errorMessage := some m }
        else { p1 with message := some m }
    | none => p1
  match status with
  | .running => { p2 with startedAt := some now }
  | .completed => { p2 with completedAt := some now }
  | .failed => { p2 with completedAt := some now }
  | .pending => p2

/-- `JobProcessor.update_job_progress`: recompute
`progress_percentage = current_step / total_steps * 100` (0 when
`total_steps` is 0) and commit. -/
def update_job_progress (job : SourcingJob) (currentStep totalSteps : Nat) : SourcingJob :=
  { job with
    currentStep := currentStep,
    totalSteps := totalSteps,
    progressPercentage :=
      if 0 < totalSteps then (currentStep : ℚ) / (totalSteps : ℚ) * 100 else 0 }

/-- `JobProcessor.mark_job_cancelled`: every `pending`/`running` step of the
job becomes `failed` with message and `error_message` "Cancelled by user" and
`completed_at` stamped; terminal steps are untouched. -/
def mark_job_cancelled (now jobId : Nat) (steps : List JobProgress) : List JobProgress :=
  steps.map (fun s =>
    if s.jobId = jobId ∧ (s.status = .pending ∨ s.status = .running) then
      { s with status := .failed, message := some cancelledByUser,
               errorMessage := some cancelledByUser, completedAt := some now }
    else s)

/-- The `except Exception` handler shared by all four job routines:
`status='failed'`, `error_message=str(e)`, `completed_at=now`, commit. -/
def failJob (now : Nat) (msg : String) (job : SourcingJob) : SourcingJob :=
  { job with status := .failed, errorMessage := some msg, completedAt := some now }

/-- `str()` of the ImportError raised by `from models import ClayPushLog,
OrgMember` — the first statement of `_check_auto_export`, placed before its
`try:` — because `jobs/models.py` defines no `ClayPushLog`. The exact Python
text is interpreter-dependent (and contains quote characters omitted here);
only the fact that some exception text is raised matters to the theorems. -/
def clayImportError : String :=
  "cannot import name ClayPushLog from models"

/-- `str()` of the ModuleNotFoundError raised by the statement
`from services.clay_service import build_lead_payload, push_lead_to_clay` —
the first statement of `process_clay_push`, placed before its `try:` —
because `services/clay_service.py` does not exist. Exact text as above. -/
def clayServiceImportError : String :=
  "No module named services.clay_service"

/-- The `org_billing` row fields read and written by `check_and_deduct`. -/
structure BillingRow where
  creditBalance : Option ℚ
  isByok : Bool
  isEnterprise : Bool
  totalCreditsUsed : Option ℚ
  totalEnrichments : Option Nat
deriving DecidableEq, Repr

/-- A `credit_transactions` ledger row written by a successful deduction. -/
structure CreditTransactionRow where
  orgId : Nat
  amount : ℚ
  balanceAfter : ℚ
  jobId : Nat
  contributorId : Nat
deriving DecidableEq, Repr

/-- A `usage_events` ledger row written by a successful deduction. -/
structure UsageEventRow where
  orgId : Nat
  cost : ℚ
  jobId : Nat
  contributorId : Nat
deriving DecidableEq, Repr

/-- The billing-relevant committed database state for one organization: its
`org_billing` row (if provisioned) and the two append-only ledger tables. -/
structure BillingState where
  row : Option BillingRow
  transactions : List CreditTransactionRow
  usageEvents : List UsageEventRow
deriving DecidableEq, Repr

/-- Failure injection for the database statements issued by
`check_and_deduct`: each flag makes the corresponding statement raise if and
when it is executed. -/
structure FaultScript where
  selectFails : Bool
  updateFails : Bool
  txnInsertFails : Bool
  redoUpdateFails : Bool
  usageInsertFails : Bool
  commitFails : Bool
deriving DecidableEq, Repr

/-- The fault-free script. -/
def noFaults : FaultScript := ⟨false, false, false, false, false, false⟩

/-- Result of `check_and_deduct`: the returned `(allowed, balance)` pair, the
committed database state after the call, and whether an unexpected exception
reached the outer fail-open `except` handler. -/
structure DeductOutcome where
  allowed : Bool
  balance : Option ℚ
  state : BillingState
  escalated : Bool
deriving DecidableEq, Repr

/-- `billing_service.check_and_deduct`: `SELECT ... FOR UPDATE` the org's
billing row; fail open when it is absent; fail open without deducting for
BYOK/enterprise orgs; roll back and decline when
`balance < cost` (`balance = Decimal(credit_balance or 0)` is `getD 0`);
otherwise write the updated row, best-effort insert a `credit_transactions`
row (on failure, roll back and re-issue the same balance update in a fresh
transaction), best-effort insert a `usage_events` row (failure ignored), and
commit. Any exception escaping to the outer handler rolls back (the committed
state stays `st`) and fails open. -/
def check_and_deduct (cost : ℚ) (f : FaultScript) (orgId jobId contributorId : Nat)
    (st : BillingState) : DeductOutcome :=
  if f.selectFails then ⟨true, none, st, true⟩
  else match st.row with
  | none => ⟨true, none, st, false⟩
  | some row =>
    let balance := row.creditBalance.getD 0
    if row.isByok || row.isEnterprise then ⟨true, some balance, st, false⟩
    else if balance < cost then ⟨false, some balance, st, false⟩
    else
      let newBalance := balance - cost
      if f.updateFails then ⟨true, none, st, true⟩
      else
        let updatedRow : BillingRow :=
          { row with
            creditBalance := some newBalance,
            totalCreditsUsed := some (row.totalCreditsUsed.getD 0 + cost),
            totalEnrichments := some (row.totalEnrichments.getD 0 + 1) }
        if f.txnInsertFails && f.redoUpdateFails then ⟨true, none, st, true⟩
        else
          let txns := if f.txnInsertFails then st.transactions
            else st.transactions ++ [⟨orgId, -cost, newBalance, jobId, contributorId⟩]
          let usages := if f.usageInsertFails then st.usageEvents
            else st.usageEvents ++ [⟨orgId, cost, jobId, contributorId⟩]
          if f.commitFails then ⟨true, none, st, true⟩
          else ⟨true, some newBalance, ⟨some updatedRow, txns, usages⟩, false⟩

/-- Outcome of the metering prefix of `process_social_enrichment` (the code
from the initial `ensure_job_active` up to the `out_of_credits` early
return): the job row, the committed billing state, the progress table, and
whether control proceeded into the step pipeline. -/
structure EnrichGateOutcome where
  job : SourcingJob
  billing : BillingState
  steps : List JobProgress
  proceeded : Bool
deriving DecidableEq, Repr

/-- Metering prefix of `process_social_enrichment`: the initial
`ensure_job_active` (raising the cancellation signal when the stored status
is `cancelled`, which the handler answers with `mark_job_cancelled`), the
contributor-id/contributor lookups (whose exceptions the enclosing handler
turns into a failed job), and the credit gate: when an org resolves and
`check_and_deduct` declines, the job terminates immediately as
`out_of_credits` with an error message and `completed_at`, before any
progress step is created. -/
def social_enrichment_gate (now : Nat) (cost : ℚ) (f : FaultScript)
    (cancelledNow : Bool) (contributorId : Option Nat) (contributorFound : Bool)
    (orgId : Option Nat) (st : BillingState) (job : SourcingJob)
    (steps : List JobProgress) : EnrichGateOutcome :=
  if cancelledNow then
    ⟨{ job with status := .cancelled }, st, mark_job_cancelled now job.id steps, false⟩
  else match contributorId with
  | none => ⟨failJob now "No contributor ID specified" job, st, steps, false⟩
  | some cid =>
    if ¬contributorFound then ⟨failJob now "Contributor not found" job, st, steps, false⟩
    else match orgId with
    | none => ⟨job, st, steps, true⟩
    | some o =>
      let r := check_and_deduct cost f o job.id cid st
      if r.allowed then ⟨job, r.state, steps, true⟩
      else
        ⟨{ job with
            status := .out_of_credits,
            errorMessage := some "Insufficient credits. Add credits to continue.",
            completedAt := some now }, r.state, steps, false⟩

/-- Per-step error policy, read off the `try/except` structure around each
step body in the four processing routines. -/
inductive ErrPolicy where
  | markAndRaise
  | markAndSwallow
  | raiseUnmarked
deriving DecidableEq, Repr

/-- Outcome of one step body as seen by the worker: it finishes normally, it
raises an exception carrying `str(e)`, or an inner-loop `ensure_job_active`
(run every 10th/5th iteration inside the step) observes `cancelled` and
raises the cancellation signal. -/
inductive BodyResult where
  | ok
  | raised (msg : String)
  | cancelSignal
deriving DecidableEq, Repr

/-- Oracles driving one execution of a processing routine: the clock, whether
the job row reads `cancelled` at the k-th between-steps `ensure_job_active`
(k = 0 at routine entry, k = i before step i), the outcome of each step
body, each step's completion message, and an exception raised by the
pre-step setup (e.g. "Repository not found"). -/
structure RunEnv where
  now : Nat
  cancelAt : Nat → Bool
  body : Nat → BodyResult
  okMsg : Nat → String
  preambleError : Option String

/-- The step skeleton of one job type: the error policy and the name of each
of its ordered steps, and whether the routine calls `_check_auto_export`
after finalization (`process_repository_sourcing` and
`process_stargazer_analysis` do). -/
structure JobTypeSpec where
  policies : List ErrPolicy
  stepName : Nat → String
  autoExport : Bool

/-- What the `try:` block of a processing routine produced: normal
completion, an exception message (caught by the generic handler that fails
the job), or the cancellation signal (caught by the handler that calls
`mark_job_cancelled` and leaves the job row alone). A cancellation signal
carries the row exactly as the external cancel operation wrote it. -/
inductive CoreResult where
  | finished (job : SourcingJob) (steps : List JobProgress)
  | jobError (msg : String) (job : SourcingJob) (steps : List JobProgress)
  | cancelSignal (job : SourcingJob) (steps : List JobProgress)
deriving DecidableEq, Repr

/-- Job initialization shared by the routines: force `status='running'`, set
`started_at` if unset, and set `total_steps` if unset. -/
def initJob (now total : Nat) (j : SourcingJob) : SourcingJob :=
  { j with
    status := .running,
    startedAt := match j.startedAt with
      | none => some now
      | some t => some t,
    totalSteps := if j.totalSteps = 0 then total else j.totalSteps }

/-- Finalization shared by the routines: `status='completed'`,
`completed_at`, `progress_percentage=100`. -/
def finalizeJob (now : Nat) (j : SourcingJob) : SourcingJob :=
  { j with status := .completed, completedAt := some now, progressPercentage := 100 }

/-- The per-step loop shared by the routines: before step `i` the status is
re-read (`ensure_job_active`), the step row is created `pending` and moved
to `running`, the body runs, and on success the step is marked `completed`
and the job progress updated; a body exception is handled according to the
step's error policy. A cancellation signal raised at an inner-loop check is
an `Exception` too (`JobCancelledError` subclasses `Exception`), so in a
step wrapped in a step-level handler it is first caught there, which marks
the in-flight step `failed` with the empty `str(e)` — writing neither
`message` nor `error_message` — and then re-raises (mark-and-re-raise) or
swallows it (mark-and-swallow); only in a step with no step-level handler
does the signal propagate with the step still `running`. -/
def runSteps (env : RunEnv) (spec : JobTypeSpec) (jobId total : Nat) :
    List ErrPolicy → Nat → SourcingJob → List JobProgress → CoreResult
  | [], _, job, steps => .finished job steps
  | p :: rest, i, job, steps =>
    if env.cancelAt i then .cancelSignal { job with status := .cancelled } steps
    else
      let s1 := update_progress_step env.now
        (create_progress_step jobId i (spec.stepName i)) .running none
      match env.body i with
      | .ok =>
          runSteps env spec jobId total rest (i + 1)
            (update_job_progress job i total)
            (steps ++ [update_progress_step env.now s1 .completed (some (env.okMsg i))])
      | .cancelSignal =>
          match p with
          | .markAndRaise =>
              .cancelSignal { job with status := .cancelled }
                (steps ++ [update_progress_step env.now s1 .failed (some "")])
          | .markAndSwallow =>
              runSteps env spec jobId total rest (i + 1)
                (update_job_progress job i total)
                (steps ++ [update_progress_step env.now s1 .failed (some "")])
          | .raiseUnmarked =>
              .cancelSignal { job with status := .cancelled } (steps ++ [s1])
      | .raised m =>
          match p with
          | .markAndRaise =>
              .jobError m job
                (steps ++ [update_progress_step env.now s1 .failed (some m)])
          | .markAndSwallow =>
              runSteps env spec jobId total rest (i + 1)
                (update_job_progress job i total)
                (steps ++ [update_progress_step env.now s1 .failed (some m)])
          | .raiseUnmarked => .jobError m job (steps ++ [s1])

/-- The `try:` body of a processing routine: entry `ensure_job_active`,
pre-step setup (which may raise), initialization, the step loop, and
finalization. In `process_repository_sourcing` / `process_stargazer_analysis`
the committed finalization is followed by `self._check_auto_export(db, job)`
still inside the `try:`; that call's first statement is an import that
cannot resolve (see `clayImportError`), so it unconditionally raises and
the routine ends in the generic handler. -/
def runCore (spec : JobTypeSpec) (env : RunEnv) (job : SourcingJob)
    (steps : List JobProgress) : CoreResult :=
  if env.cancelAt 0 then .cancelSignal { job with status := .cancelled } steps
  else match env.preambleError with
  | some m => .jobError m job steps
  | none =>
      match runSteps env spec job.id spec.policies.length spec.policies 1
        (initJob env.now spec.policies.length job) steps with
      | .finished j s =>
          if spec.autoExport then .jobError clayImportError (finalizeJob env.now j) s
          else .finished (finalizeJob env.now j) s
      | .jobError m j s => .jobError m j s
      | .cancelSignal j s => .cancelSignal j s

/-- A processing routine with its `except JobCancelledError` and
`except Exception` handlers wrapped around the `try:` body. -/
def runJob (spec : JobTypeSpec) (env : RunEnv) (job : SourcingJob)
    (steps : List JobProgress) : SourcingJob × List JobProgress :=
  match runCore spec env job steps with
  | .finished j s => (j, s)
  | .jobError m j s => (failJob env.now m j, s)
  | .cancelSignal j s => (j, mark_job_cancelled env.now job.id s)

/-- `process_repository_sourcing`: 4 steps; steps 1-3 mark the failed step
and re-raise; step 4 (queue enrichment) marks the step failed but swallows
the exception; finalization is followed by the `_check_auto_export` call. -/
def repositorySourcingSpec : JobTypeSpec :=
  ⟨[.markAndRaise, .markAndRaise, .markAndRaise, .markAndSwallow],
   fun i =>
     if i = 1 then "Fetching repository metadata"
     else if i = 2 then "Fetching contributors"
     else if i = 3 then "Processing contributor statistics"
     else "Queuing social enrichment for contributors",
   true⟩

/-- `process_social_enrichment` after the metering gate: step 1 downgrades
search failures to empty results and continues, step 2 marks and re-raises,
step 3 has no step-level handler. -/
def socialEnrichmentSpec : JobTypeSpec :=
  ⟨[.markAndSwallow, .markAndRaise, .raiseUnmarked],
   fun i =>
     if i = 1 then "Searching for social profiles"
     else if i = 2 then "Extracting professional information"
     else "Finalizing",
   false⟩

/-- `process_stargazer_analysis`: steps 1-2 mark and re-raise; step 3 (queue
enrichment) marks and swallows; finalization is followed by the
`_check_auto_export` call. -/
def stargazerAnalysisSpec : JobTypeSpec :=
  ⟨[.markAndRaise, .markAndRaise, .markAndSwallow],
   fun i =>
     if i = 1 then "Fetching stargazers"
     else if i = 2 then "Processing stargazer profiles"
     else "Queuing social enrichment",
   true⟩

/-- Oracle environment in which step 4 of repository sourcing raises and
everything else succeeds. -/
def step4FailEnv : RunEnv :=
  ⟨100, fun _ => false, fun i => if i = 4 then .raised "boom" else .ok,
   fun _ => "done", none⟩

/-- Oracle environment in which the enrichment search step raises (and is
downgraded) and step 2 raises fatally. -/
def step2FailEnv : RunEnv :=
  ⟨100, fun _ => false,
   fun i => if i = 1 then .raised "net down" else
     if i = 2 then .raised "boom" else .ok,
   fun _ => "done", none⟩

/-- Oracle environment in which cancellation is observed at the check before
step 2. -/
def cancelAt2Env : RunEnv :=
  ⟨100, fun k => k = 2, fun _ => .ok, fun _ => "done", none⟩

/-- Oracle environment in which every check passes and every body succeeds. -/
def allOkEnv : RunEnv :=
  ⟨100, fun _ => false, fun _ => .ok, fun _ => "done", none⟩

/-- Oracle environment in which only the enrichment search step (step 1)
raises. -/
def step1FailEnv : RunEnv :=
  ⟨100, fun _ => false, fun i => if i = 1 then .raised "net down" else .ok,
   fun _ => "done", none⟩

/-- Oracle environment in which the inner-loop check of step 3 observes
cancellation (sourcing step 3 re-reads the status every 10 contributors,
inside its step-level handler). -/
def innerCancelEnv : RunEnv :=
  ⟨100, fun _ => false, fun i => if i = 3 then .cancelSignal else .ok,
   fun _ => "done", none⟩

/-- A sample pending `repository_sourcing` job. -/
def sampleSourcingJob : SourcingJob :=
  ⟨3, .repository_sourcing, .pending, 1, none, none, 0, 0, 0, none⟩

/-- Push outcome states recorded in `clay_push_log`. -/
inductive PushStatus where
  | success
  | failed
deriving DecidableEq, Repr

/-- A `clay_push_log` row: one per (job, contributor) webhook attempt. -/
structure ClayPushLog where
  orgId : Option Nat
  jobId : Nat
  contributorId : Nat
  projectId : Nat
  status : PushStatus
  errorMessage : Option String
  clayResponseStatus : Option Nat
deriving DecidableEq, Repr

/-- Observable side effects of the push loop, in order: one `send` per
webhook POST and one `sleep` per rate-limit pause. -/
inductive ClayEvent where
  | send (idx : Nat)
  | sleep
deriving DecidableEq, Repr

/-- Oracles for one `clay_push_try_body` run: the clock, the status read at
the k-th between-steps check, the status read at the inner check of loop
iteration `i` (performed when `i % 5 = 0`), and the
`(ok, http_status, error)` triple returned by `push_lead_to_clay` for the
i-th send (the webhook pusher adapter itself is external). -/
structure ClayEnv where
  now : Nat
  cancelAt : Nat → Bool
  cancelInner : Nat → Bool
  pushResult : Nat → Bool × Option Nat × Option String

/-- Accumulator of the push loop. -/
structure PushLoopState where
  logs : List ClayPushLog
  trace : List ClayEvent
  successCount : Nat
  failCount : Nat
  step2 : JobProgress
deriving DecidableEq, Repr

/-- The push loop either finishes or is aborted by an inner cancellation
observation. -/
inductive PushLoopResult where
  | done (st : PushLoopState)
  | cancelled (st : PushLoopState)
deriving DecidableEq, Repr

/-- Progress message written every 5 pushes and at the last push. -/
def pushProgressMsg (pushedSoFar total okCount failCount : Nat) : String :=
  "Pushed " ++ toString pushedSoFar ++ "/" ++ toString total ++ " leads (" ++
    toString okCount ++ " ok, " ++ toString failCount ++ " failed)"

/-- The `for i, contributor in enumerate(contributors)` loop of
`clay_push_try_body`: every 5th iteration re-checks cancellation, each
iteration performs the POST, appends a `clay_push_log` row regardless of
outcome, updates the tallies, refreshes the step message every 5 pushes and
at the last one, and sleeps the rate-limit interval only when more sends
remain (`rate_limit_ms > 0 and i < len(contributors) - 1`). -/
def pushLoop (env : ClayEnv) (orgId : Option Nat) (jobId projId n : Nat)
    (rateLimitMs : Int) :
    List Nat → Nat → PushLoopState → PushLoopResult
  | [], _, st => .done st
  | c :: rest, i, st =>
    if i % 5 = 0 ∧ env.cancelInner i = true then .cancelled st
    else
      let pr := env.pushResult i
      let ok := pr.1
      let log : ClayPushLog :=
        ⟨orgId, jobId, c, projId, if ok then .success else .failed, pr.2.2, pr.2.1⟩
      let st1 : PushLoopState :=
        { st with
          logs := st.logs ++ [log],
          trace := st.trace ++ [.send i],
          successCount := st.successCount + (if ok then 1 else 0),
          failCount := st.failCount + (if ok then 0 else 1) }
      let st2 : PushLoopState :=
        if (i + 1) % 5 = 0 ∨ i = n - 1 then
          { st1 with step2 := (update_progress_step env.now st1.step2 .running
              (some (pushProgressMsg (i + 1) n st1.successCount st1.failCount))) }
        else st1
      let st3 : PushLoopState :=
        if rateLimitMs > 0 ∧ i < n - 1 then
          { st2 with trace := st2.trace ++ [.sleep] }
        else st2
      pushLoop env orgId jobId projId n rateLimitMs rest (i + 1) st3

/-- Result of a `clay_push_try_body` run: the job row, the progress table,
the `clay_push_log` rows written, and the ordered send/sleep event trace. -/
structure ClayRunResult where
  job : SourcingJob
  steps : List JobProgress
  logs : List ClayPushLog
  trace : List ClayEvent
deriving DecidableEq, Repr

/-- The `try:` body of `JobProcessor.process_clay_push`, modeled as if the
function's entry imports resolved. In the source as written this body is
UNREACHABLE — the imports above the `try:` always raise (see
`clayServiceImportError`) — so this definition documents the intended §4.6
pipeline rather than reachable behavior; `process_clay_push` models what
actually runs. The body: entry `ensure_job_active`; metadata checks
(`lead_ids`, `project_id`); org resolution (passed resolved); webhook URL
and rate limit from settings (a falsy URL raises); project lookup;
initialization with `total_steps = 2`; step 1 resolves the contributor set
(`Contributor.id IN lead_ids`, table order) and fails hard with
"No valid leads found" when empty; step 2 drives the rate-limited push loop;
then finalization. The cancellation signal is answered by
`mark_job_cancelled` as in every routine. -/
def clay_push_try_body (env : ClayEnv) (leadIds : List Nat)
    (projectId : Option Nat) (orgId : Option Nat) (webhookUrl : Option String)
    (rateLimitMs : Int) (projectFound : Bool) (contributorTable : List Nat)
    (job : SourcingJob) (steps : List JobProgress) : ClayRunResult :=
  if env.cancelAt 0 then
    ⟨{ job with status := .cancelled }, mark_job_cancelled env.now job.id steps, [], []⟩
  else if leadIds.isEmpty then
    ⟨failJob env.now "No lead IDs specified" job, steps, [], []⟩
  else match projectId with
  | none => ⟨failJob env.now "No project ID specified" job, steps, [], []⟩
  | some projId =>
    match webhookUrl with
    | none => ⟨failJob env.now "Clay webhook URL not configured" job, steps, [], []⟩
    | some url =>
      if url = "" then
        ⟨failJob env.now "Clay webhook URL not configured" job, steps, [], []⟩
      else if ¬projectFound then
        ⟨failJob env.now "Project not found" job, steps, [], []⟩
      else
        let job1 := { initJob env.now 2 job with totalSteps := 2 }
        if env.cancelAt 1 then
          ⟨{ job1 with status := .cancelled }, mark_job_cancelled env.now job.id steps,
           [], []⟩
        else
          let s1 := update_progress_step env.now
            (create_progress_step job.id 1 "Preparing leads") .running none
          let contributors := contributorTable.filter (fun c => leadIds.contains c)
          if contributors.isEmpty then
            ⟨failJob env.now "No valid leads found for the given IDs" job1,
             steps ++ [update_progress_step env.now s1 .failed
               (some "No valid leads found")], [], []⟩
          else
            let s1c := update_progress_step env.now s1 .completed
              (some ("Found " ++ toString contributors.length ++ " leads to push"))
            let job2 := update_job_progress job1 1 2
            if env.cancelAt 2 then
              ⟨{ job2 with status := .cancelled },
               mark_job_cancelled env.now job.id (steps ++ [s1c]), [], []⟩
            else
              let s2 := update_progress_step env.now
                (create_progress_step job.id 2 "Pushing leads to Clay") .running none
              match pushLoop env orgId job.id projId contributors.length rateLimitMs
                  contributors 0 ⟨[], [], 0, 0, s2⟩ with
              | .cancelled st =>
                  ⟨{ job2 with status := .cancelled },
                   mark_job_cancelled env.now job.id (steps ++ [s1c, st.step2]),
                   st.logs, st.trace⟩
              | .done st =>
                  let summary := "Pushed " ++ toString st.successCount ++
                    " leads to Clay" ++
                    (if st.failCount ≠ 0 then
                      " (" ++ toString st.failCount ++ " failed)" else "")
                  ⟨finalizeJob env.now (update_job_progress job2 2 2),
                   steps ++ [s1c, update_progress_step env.now st.step2 .completed
                     (some summary)],
                   st.logs, st.trace⟩

/-- `JobProcessor.process_clay_push` as actually written: its first
statements — `from services.clay_service import build_lead_payload,
push_lead_to_clay` and `from models import ClayPushLog, OrgMember` — precede
the `try:` block and cannot be resolved (`services/clay_service.py` does not
exist; `jobs/models.py` defines no `ClayPushLog`), so every call raises
before any step row, log row, send or sleep (the `try:` body is
`clay_push_try_body`, dead code). The exception propagates to `process_job`,
whose handler marks the claimed, still-`running` job `failed` with the
exception text truncated to 500 characters and leaves a non-running row
alone; the tables pass through untouched. -/
def process_clay_push (now : Nat) (job : SourcingJob) (steps : List JobProgress)
    (logs : List ClayPushLog) :
    SourcingJob × List JobProgress × List ClayPushLog × List ClayEvent :=
  if job.status = .running then
    (failJob now (clayServiceImportError.take 500) job, steps, logs, [])
  else (job, steps, logs, [])

/-- Oracle environment for the sunny-day clay push witness: no cancellation,
every push succeeds with HTTP 200. -/
def clayEnvW : ClayEnv :=
  ⟨50, fun _ => false, fun _ => false, fun _ => (true, some 200, none)⟩

/-- A sample pending `clay_push` job. -/
def sampleClayJob : SourcingJob :=
  ⟨11, .clay_push, .pending, 6, none, none, 0, 0, 0, none⟩

/-- The `projects` row fields read by `_check_auto_export`. -/
structure ProjectRow where
  id : Nat
  autoExportClayEnabled : Bool
  autoExportClayMinScore : Option ℚ
  autoExportClayClassifications : Option (List String)
deriving DecidableEq, Repr

/-- A `lead_scores` row (the fields the export filter reads). -/
structure LeadScoreRow where
  projectId : Nat
  contributorId : Nat
  overallScore : Option ℚ
deriving DecidableEq, Repr

/-- A `social_context` row (the fields the export filter reads). -/
structure SocialContextRow where
  contributorId : Nat
  classification : Option String
deriving DecidableEq, Repr

/-- The metadata of the `clay_push` job `_check_auto_export` enqueues. -/
structure AutoExportJob where
  projectId : Nat
  leadIds : List Nat
  orgId : Option Nat
  webhookUrl : String
deriving DecidableEq, Repr

/-- Python truthiness of `auto_export_clay_min_score` (`None` and `0` are
falsy). -/
def minScoreTruthy : Option ℚ → Bool
  | none => false
  | some x => x ≠ 0

/-- Python truthiness of `auto_export_clay_classifications` (`None` and the
empty array are falsy). -/
def classificationsTruthy : Option (List String) → Bool
  | none => false
  | some l => !l.isEmpty

/-- The per-contributor filter of `_check_auto_export`: a contributor with
no score row is excluded; the minimum score is enforced when configured
(`overall_score or 0`); the classification allow-list is enforced when
configured (a missing social row or classification is excluded). -/
def passesExportFilters (project : ProjectRow) (scores : List LeadScoreRow)
    (socials : List SocialContextRow) (c : Nat) : Bool :=
  match scores.find? (fun s => s.projectId = project.id ∧ s.contributorId = c) with
  | none => false
  | some s =>
    if minScoreTruthy project.autoExportClayMinScore
        ∧ s.overallScore.getD 0 < project.autoExportClayMinScore.getD 0 then false
    else if classificationsTruthy project.autoExportClayClassifications then
      match socials.find? (fun sc => sc.contributorId = c) with
      | none => false
      | some sc =>
        match sc.classification with
        | none => false
        | some cls => (project.autoExportClayClassifications.getD []).contains cls
    else true

/-- The `already_pushed` set of `_check_auto_export`: contributors with a
`success` log row for this org and project — computed only when an org
resolves (`if org_id:`), empty otherwise. -/
def alreadyPushedIds (orgId : Option Nat) (projectId : Nat)
    (pushLogs : List ClayPushLog) : List Nat :=
  match orgId with
  | some o =>
      (pushLogs.filter (fun l => l.orgId = some o
        ∧ l.projectId = projectId ∧ l.status = .success)).map
        (fun l => l.contributorId)
  | none => []

/-- The `try:` body of `JobProcessor._check_auto_export`, modeled as if the
function's entry import resolved and `Project` were bound. In the source as
written this body is UNREACHABLE — the import above the `try:` always
raises (see `clayImportError`), and even past it the unbound `Project` name
raises inside the `try:` and is swallowed — so this definition documents
the intended §4.7 trigger rather than reachable behavior;
`check_auto_export` models what actually runs. The body: skip when the
project is missing or export is disabled, when the Clay webhook is not
configured, or when the project has no contributors; exclude contributors
already logged `success` for this org and project — but only when an org
resolves for the job's creator, otherwise the dedup query is skipped
entirely; apply the optional score/classification filters; enqueue exactly
one `clay_push` job carrying the surviving set, or nothing when it is
empty. -/
def check_auto_export_body (projectRow : Option ProjectRow) (orgId : Option Nat)
    (webhookUrl : Option String) (projectContributorIds : List Nat)
    (pushLogs : List ClayPushLog) (leadScores : List LeadScoreRow)
    (socialContexts : List SocialContextRow) : Option AutoExportJob :=
  match projectRow with
  | none => none
  | some project =>
    if ¬project.autoExportClayEnabled then none
    else match webhookUrl with
    | none => none
    | some url =>
      if url = "" then none
      else
        let allIds := projectContributorIds.dedup
        if allIds.isEmpty then none
        else
          let alreadyPushed : List Nat := alreadyPushedIds orgId project.id pushLogs
          let newIds := allIds.filter (fun c => ¬alreadyPushed.contains c)
          if newIds.isEmpty then none
          else
            let filtered :=
              if minScoreTruthy project.autoExportClayMinScore
                  ∨ classificationsTruthy project.autoExportClayClassifications then
                newIds.filter (passesExportFilters project leadScores socialContexts)
              else newIds
            if filtered.isEmpty then none
            else some ⟨project.id, filtered, orgId, url⟩

/-- `JobProcessor._check_auto_export` as actually written: its first
statement, `from models import ClayPushLog, OrgMember`, precedes its `try:`
and raises — `jobs/models.py` defines no `ClayPushLog` — so every call
aborts before the dedup/filter/enqueue logic (`check_auto_export_body`).
The call site in `process_repository_sourcing` / `process_stargazer_analysis`
sits inside the routine's `try:`, whose generic handler marks the
just-completed job `failed` with the exception text. The jobs table passes
through unchanged: no `clay_push` job is ever enqueued. -/
def check_auto_export (now : Nat) (job : SourcingJob)
    (jobsDb : List SourcingJob) : SourcingJob × List SourcingJob :=
  (failJob now clayImportError job, jobsDb)

/-- Outcome of the dispatch prefix of `process_job`. -/
inductive DispatchOutcome where
  | missing
  | skippedCancelled
  | dispatched (t : JobType)
deriving DecidableEq, Repr

/-- The dispatch prefix of `JobProcessor.process_job`: re-read the claimed
job's row by id; return without touching anything when the row is gone or
its status is already `cancelled`; otherwise dispatch on `job_type`. The job
table and the progress table are returned to express that the skip paths
modify nothing. -/
def process_job_dispatch (db : List SourcingJob) (steps : List JobProgress)
    (jobId : Nat) : DispatchOutcome × List SourcingJob × List JobProgress :=
  match db.find? (fun j => j.id = jobId) with
  | none => (.missing, db, steps)
  | some j =>
      if j.status = .cancelled then (.skippedCancelled, db, steps)
      else (.dispatched j.jobType, db, steps)

/-- A project used by the auto-export counterexample and witness: export
enabled, no score or classification filters. -/
def cexProject : ProjectRow := ⟨4, true, none, none⟩

/-- A success log for contributor 7 on project 4 written under org 1. -/
def cexLog : ClayPushLog := ⟨some 1, 11, 7, 4, .success, none, some 200⟩

/-- A sample cancelled job. -/
def sampleCancelledJob : SourcingJob :=
  ⟨9, .clay_push, .cancelled, 2, none, none, 0, 0, 0, none⟩

/-- Sample rows used by the concrete witness instantiations. -/
def sampleRunningJob : SourcingJob :=
  ⟨1, .repository_sourcing, .running, 10, some 11, none, 4, 2, 50, none⟩

/-- A sample job stuck in `out_of_credits`. -/
def sampleOocJob : SourcingJob :=
  ⟨2, .social_enrichment, .out_of_credits, 12, none, some 13, 3, 0, 0, none⟩

/-- A sample pending `social_enrichment` job. -/
def sampleEnrichJob : SourcingJob :=
  ⟨7, .social_enrichment, .pending, 4, none, none, 0, 0, 0, none⟩

/-- A sample in-flight progress step. -/
def sampleStep (jid n : Nat) : JobProgress :=
  ⟨jid, n, "work", .running, none, none, some 11, none⟩

/-- A billing row with zero balance, not BYOK, not enterprise. -/
def declineRow : BillingRow := ⟨some 0, false, false, some 5, some 3⟩

/-- A billing state holding only `declineRow`. -/
def declineState : BillingState := ⟨some declineRow, [], []⟩

/-- C1: `claim_pending_jobs` returns at most `max(0, MAX_CONCURRENT_JOBS -
|running_jobs|)` jobs; each returned job had status `pending` in the table
before the call and is returned transitioned to `running` with `started_at`
set only if it was unset; the returned list is ascending in `created_at`
(FIFO); every returned job is committed in the resulting table; and the
result is empty whenever the budget is `0` or no pending job exists. -/
theorem claim_pending_jobs_spec (maxConcurrentJobs runningJobsCount now : Nat)
    (db : List SourcingJob) :
    ((claim_pending_jobs maxConcurrentJobs runningJobsCount now db).1.length ≤
        (max 0 ((maxConcurrentJobs : Int) - (runningJobsCount : Int))).toNat)
    ∧ (∀ j ∈ (claim_pending_jobs maxConcurrentJobs runningJobsCount now db).1,
        ∃ j0 ∈ db, j0.status = .pending ∧ j = markRunning now j0
          ∧ j.status = .running ∧ j.startedAt = some (j0.startedAt.getD now))
    ∧ (claim_pending_jobs maxConcurrentJobs runningJobsCount now db).1.Pairwise
        (fun a b => a.createdAt ≤ b.createdAt)
    ∧ (∀ j ∈ (claim_pending_jobs maxConcurrentJobs runningJobsCount now db).1,
        j ∈ (claim_pending_jobs maxConcurrentJobs runningJobsCount now db).2)
    ∧ ((max 0 ((maxConcurrentJobs : Int) - (runningJobsCount : Int)) = 0
          ∨ ∀ j ∈ db, j.status ≠ .pending) →
        (claim_pending_jobs maxConcurrentJobs runningJobsCount now db).1 = []) := by
  classical
  set A : Nat := (max 0 ((maxConcurrentJobs : Int) - (runningJobsCount : Int))).toNat with hA
  set sorted := List.insertionSort (fun a b : SourcingJob => a.createdAt ≤ b.createdAt)
    (db.filter (fun j => j.status = .pending)) with hsorted
  by_cases h0 : A = 0
  · have hr : claim_pending_jobs maxConcurrentJobs runningJobsCount now db = ([], db) := by
      simp only [claim_pending_jobs]
      rw [← hA, if_pos h0]
    rw [hr]
    refine ⟨by simp, by simp, by simp, by simp, fun _ => rfl⟩
  · by_cases hsel : (sorted.take A).isEmpty = true
    · have hr : claim_pending_jobs maxConcurrentJobs runningJobsCount now db = ([], db) := by
        simp only [claim_pending_jobs]
        rw [← hA, if_neg h0, ← hsorted, if_pos hsel]
      rw [hr]
      refine ⟨by simp, by simp, by simp, by simp, fun _ => rfl⟩
    · have hr : claim_pending_jobs maxConcurrentJobs runningJobsCount now db =
          ((sorted.take A).map (markRunning now),
           db.map (fun j => if ((sorted.take A).map (fun j => j.id)).contains j.id
              then markRunning now j else j)) := by
        simp only [claim_pending_jobs]
        rw [← hA, if_neg h0, ← hsorted, if_neg hsel]
      have hperm : List.Perm sorted (db.filter (fun j => j.status = .pending)) :=
        List.perm_insertionSort _ _
      have hmem_db : ∀ j0 ∈ sorted.take A, j0 ∈ db ∧ j0.status = .pending := by
        intro j0 hj0
        have h1 : j0 ∈ sorted := List.mem_of_mem_take hj0
        have h2 : j0 ∈ db.filter (fun j => j.status = .pending) := hperm.mem_iff.mp h1
        simpa using h2
      rw [hr]
      refine ⟨?_, ?_, ?_, ?_, ?_⟩
      · simp only [List.length_map]
        calc (sorted.take A).length ≤ A := List.length_take_le A sorted
          _ = A := rfl
      · intro j hj
        simp only [List.mem_map] at hj
        obtain ⟨j0, hj0, rfl⟩ := hj
        obtain ⟨hdb, hpend⟩ := hmem_db j0 hj0
        refine ⟨j0, hdb, hpend, rfl, rfl, ?_⟩
        cases h : j0.startedAt <;> simp [markRunning, h]
      · haveI : IsTotal SourcingJob (fun a b => a.createdAt ≤ b.createdAt) :=
          ⟨fun a b => Nat.le_total a.createdAt b.createdAt⟩
        haveI : IsTrans SourcingJob (fun a b => a.createdAt ≤ b.createdAt) :=
          ⟨fun _ _ _ hab hbc => Nat.le_trans hab hbc⟩
        have hs : sorted.Pairwise (fun a b => a.createdAt ≤ b.createdAt) :=
          List.sorted_insertionSort _ _
        have ht : (sorted.take A).Pairwise (fun a b => a.createdAt ≤ b.createdAt) :=
          hs.sublist (List.take_sublist A sorted)
        rw [List.pairwise_map]
        exact ht.imp (fun h => h)
      · intro j hj
        simp only [List.mem_map] at hj
        obtain ⟨j0, hj0, rfl⟩ := hj
        have hdb := (hmem_db j0 hj0).1
        have hid : ((sorted.take A).map (fun j => j.id)).contains j0.id = true := by
          simp only [List.contains_iff_exists_mem_beq]
          exact ⟨j0.id, List.mem_map_of_mem _ hj0, by simp⟩
        simp only [List.mem_map]
        exact ⟨j0, hdb, by rw [if_pos hid]⟩
      · intro h
        rcases h with h | h
        · exact absurd (by rw [hA, h]; rfl) h0
        · exact absurd (by
            rw [hsorted, List.filter_eq_nil_iff.mpr (fun a ha => by simpa using h a ha)]
            simp [List.insertionSort]) hsel

/-- C2: orphan recovery resets every `running` job to `pending`, clears
`started_at`, zeroes `current_step` and `progress_percentage`, and deletes all
of that job's progress rows, while `out_of_credits` jobs and their progress
rows are left untouched. -/
theorem recover_orphaned_jobs_spec (db : List SourcingJob) (steps : List JobProgress)
    (hids : (db.map (fun j => j.id)).Nodup) :
    (∀ j ∈ db, j.status = .running →
        ({ j with status := .pending, startedAt := none,
                  progressPercentage := 0, currentStep := 0 } : SourcingJob)
            ∈ (recover_orphaned_jobs db steps).1
        ∧ ∀ s ∈ (recover_orphaned_jobs db steps).2, s.jobId ≠ j.id)
    ∧ (∀ j ∈ db, j.status = .out_of_credits →
        j ∈ (recover_orphaned_jobs db steps).1
        ∧ ∀ s ∈ steps, s.jobId = j.id → s ∈ (recover_orphaned_jobs db steps).2) := by
  classical
  constructor
  · intro j hj hrun
    constructor
    · simp only [recover_orphaned_jobs, List.mem_map]
      exact ⟨j, hj, by simp [hrun]⟩
    · intro s hs heq
      simp only [recover_orphaned_jobs, List.mem_filter, decide_eq_true_eq] at hs
      apply hs.2
      simp only [List.contains_iff_exists_mem_beq, List.mem_map]
      refine ⟨j.id, ⟨j, List.mem_filter.mpr ⟨hj, by simp [hrun]⟩, rfl⟩, by simp [heq]⟩
  · intro j hj hooc
    have hnotrun : j.status ≠ .running := by rw [hooc]; intro h; cases h
    constructor
    · simp only [recover_orphaned_jobs, List.mem_map]
      exact ⟨j, hj, by simp [hnotrun]⟩
    · intro s hs hsid
      simp only [recover_orphaned_jobs, List.mem_filter, decide_eq_true_eq]
      refine ⟨hs, ?_⟩
      intro hcont
      rw [List.contains_iff_exists_mem_beq] at hcont
      obtain ⟨a, ha, hbeq⟩ := hcont
      rw [List.mem_map] at ha
      obtain ⟨j', hj', rfl⟩ := ha
      rw [List.mem_filter] at hj'
      have hj'run : j'.status = .running := by simpa using hj'.2
      have hidEq : s.jobId = j'.id := by simpa using hbeq
      have heq : j' = j :=
        List.inj_on_of_nodup_map hids hj'.1 hj (by rw [← hidEq, hsid])
      rw [heq] at hj'run
      exact hnotrun hj'run

/-- Witness for `recover_orphaned_jobs_spec` at a concrete two-job table with
distinct ids. -/
theorem recover_orphaned_jobs_spec_witness :
    (([sampleRunningJob, sampleOocJob] : List SourcingJob).map (fun j => j.id)).Nodup
    ∧ sampleOocJob ∈ (recover_orphaned_jobs [sampleRunningJob, sampleOocJob]
        [sampleStep 1 1, sampleStep 2 1]).1 :=
  ⟨by decide,
   ((recover_orphaned_jobs_spec [sampleRunningJob, sampleOocJob]
      [sampleStep 1 1, sampleStep 2 1] (by decide)).2 sampleOocJob
      (List.mem_cons_of_mem _ (List.mem_cons_self _ _)) rfl).1⟩

/-- C4: with a billing row present, neither BYOK nor enterprise, and the
balance strictly below the per-unit cost, `check_and_deduct` rolls back and
returns `allowed = false` with the pre-deduction balance, leaving the billing
row, the usage counters and the ledger tables unchanged. -/
theorem check_and_deduct_decline_atomic (cost : ℚ) (f : FaultScript)
    (orgId jobId contributorId : Nat) (st : BillingState) (row : BillingRow)
    (hrow : st.row = some row) (hsel : f.selectFails = false)
    (hbyok : row.isByok = false) (hent : row.isEnterprise = false)
    (hbal : row.creditBalance.getD 0 < cost) :
    check_and_deduct cost f orgId jobId contributorId st =
      ⟨false, some (row.creditBalance.getD 0), st, false⟩ := by
  simp [check_and_deduct, hrow, hsel, hbyok, hent, hbal]

/-- Witness for `check_and_deduct_decline_atomic`: zero balance against the
default cost 0.01. -/
theorem check_and_deduct_decline_atomic_witness :
    check_and_deduct 1 noFaults 1 2 3 declineState =
      ⟨false, some 0, declineState, false⟩ :=
  check_and_deduct_decline_atomic 1 noFaults 1 2 3 declineState declineRow
    rfl rfl rfl rfl (by decide)

/-- C5: `check_and_deduct` fails open: an absent billing row allows with no
balance reported; a BYOK or enterprise row allows without deducting; and
whenever an unexpected exception reaches the outer handler the call rolls
back (committed state unchanged) and allows. -/
theorem check_and_deduct_fail_open (cost : ℚ) (f : FaultScript)
    (orgId jobId contributorId : Nat) (st : BillingState) :
    (st.row = none → f.selectFails = false →
      check_and_deduct cost f orgId jobId contributorId st = ⟨true, none, st, false⟩)
    ∧ (∀ row, st.row = some row → (row.isByok || row.isEnterprise) = true →
        f.selectFails = false →
        check_and_deduct cost f orgId jobId contributorId st =
          ⟨true, some (row.creditBalance.getD 0), st, false⟩)
    ∧ ((check_and_deduct cost f orgId jobId contributorId st).escalated = true →
        (check_and_deduct cost f orgId jobId contributorId st).allowed = true
        ∧ (check_and_deduct cost f orgId jobId contributorId st).state = st) := by
  refine ⟨?_, ?_, ?_⟩
  · intro h hs
    simp [check_and_deduct, h, hs]
  · intro row hrow hflag hs
    simp [check_and_deduct, hrow, hflag, hs]
  · intro hesc
    by_cases h1 : f.selectFails = true
    · simp [check_and_deduct, h1]
    · replace h1 : f.selectFails = false := by simpa using h1
      cases hrow : st.row with
      | none => simp [check_and_deduct, h1, hrow] at hesc
      | some row =>
        by_cases h2 : (row.isByok || row.isEnterprise) = true
        · simp [check_and_deduct, h1, hrow, h2] at hesc
        · replace h2 : (row.isByok || row.isEnterprise) = false := by simpa using h2
          by_cases h3 : row.creditBalance.getD 0 < cost
          · simp [check_and_deduct, h1, hrow, h2, h3] at hesc
          · by_cases h4 : f.updateFails = true
            · simp [check_and_deduct, h1, hrow, h2, h3, h4]
            · replace h4 : f.updateFails = false := by simpa using h4
              by_cases h5 : (f.txnInsertFails && f.redoUpdateFails) = true
              · simp [check_and_deduct, h1, hrow, h2, h3, h4, h5]
              · replace h5 : (f.txnInsertFails && f.redoUpdateFails) = false := by
                  simpa using h5
                by_cases h6 : f.commitFails = true
                · simp [check_and_deduct, h1, hrow, h2, h3, h4, h5, h6]
                · replace h6 : f.commitFails = false := by simpa using h6
                  simp [check_and_deduct, h1, hrow, h2, h3, h4, h5, h6] at hesc

/-- Witness for `check_and_deduct_fail_open`: absent row, BYOK row, and a
commit fault, all at concrete inputs. -/
theorem check_and_deduct_fail_open_witness :
    check_and_deduct 1 noFaults 1 2 3 ⟨none, [], []⟩ =
      ⟨true, none, ⟨none, [], []⟩, false⟩
    ∧ check_and_deduct 1 noFaults 1 2 3
        ⟨some ⟨some 7, true, false, none, none⟩, [], []⟩ =
      ⟨true, some 7, ⟨some ⟨some 7, true, false, none, none⟩, [], []⟩, false⟩
    ∧ ((check_and_deduct 1 ⟨false, false, false, false, false, true⟩ 1 2 3
          ⟨some ⟨some 7, false, false, none, none⟩, [], []⟩).allowed = true
        ∧ (check_and_deduct 1 ⟨false, false, false, false, false, true⟩ 1 2 3
          ⟨some ⟨some 7, false, false, none, none⟩, [], []⟩).state =
            ⟨some ⟨some 7, false, false, none, none⟩, [], []⟩) :=
  ⟨(check_and_deduct_fail_open 1 noFaults 1 2 3 ⟨none, [], []⟩).1 rfl rfl,
   (check_and_deduct_fail_open 1 noFaults 1 2 3
      ⟨some ⟨some 7, true, false, none, none⟩, [], []⟩).2.1
      ⟨some 7, true, false, none, none⟩ rfl rfl rfl,
   (check_and_deduct_fail_open 1 ⟨false, false, false, false, false, true⟩ 1 2 3
      ⟨some ⟨some 7, false, false, none, none⟩, [], []⟩).2.2 (by decide)⟩

/-- C3: a `social_enrichment` job whose resolved org's credit deduction is
declined (billing row present, non-BYOK, non-enterprise, balance below the
per-unit cost) terminates as `out_of_credits` — not `failed` — with an error
message and `completed_at` set, with zero progress steps created and the
billing state (balance, counters, ledgers) unchanged. -/
theorem social_enrichment_out_of_credits (now : Nat) (cost : ℚ) (f : FaultScript)
    (contributorId orgId : Nat) (st : BillingState) (row : BillingRow)
    (job : SourcingJob) (steps : List JobProgress)
    (hrow : st.row = some row) (hsel : f.selectFails = false)
    (hbyok : row.isByok = false) (hent : row.isEnterprise = false)
    (hbal : row.creditBalance.getD 0 < cost) :
    (social_enrichment_gate now cost f false (some contributorId) true
        (some orgId) st job steps).job.status = .out_of_credits
    ∧ (social_enrichment_gate now cost f false (some contributorId) true
        (some orgId) st job steps).job.status ≠ .failed
    ∧ (social_enrichment_gate now cost f false (some contributorId) true
        (some orgId) st job steps).job.errorMessage =
        some "Insufficient credits. Add credits to continue."
    ∧ (social_enrichment_gate now cost f false (some contributorId) true
        (some orgId) st job steps).job.completedAt = some now
    ∧ (social_enrichment_gate now cost f false (some contributorId) true
        (some orgId) st job steps).steps = steps
    ∧ (social_enrichment_gate now cost f false (some contributorId) true
        (some orgId) st job steps).billing = st
    ∧ (social_enrichment_gate now cost f false (some contributorId) true
        (some orgId) st job steps).proceeded = false := by
  have hgate : social_enrichment_gate now cost f false (some contributorId) true
      (some orgId) st job steps =
      ⟨{ job with
          status := .out_of_credits,
          errorMessage := some "Insufficient credits. Add credits to continue.",
          completedAt := some now }, st, steps, false⟩ := by
    simp [social_enrichment_gate, check_and_deduct, hrow, hsel, hbyok, hent, hbal]
  rw [hgate]
  refine ⟨rfl, by simp, rfl, rfl, rfl, rfl, rfl⟩

/-- Witness for `social_enrichment_out_of_credits`: zero balance against the
default cost 0.01. -/
theorem social_enrichment_out_of_credits_witness :
    (social_enrichment_gate 5 1 noFaults false (some 3) true
        (some 1) declineState sampleEnrichJob []).job.status = .out_of_credits
    ∧ (social_enrichment_gate 5 1 noFaults false (some 3) true
        (some 1) declineState sampleEnrichJob []).steps = []
    ∧ (social_enrichment_gate 5 1 noFaults false (some 3) true
        (some 1) declineState sampleEnrichJob []).billing = declineState :=
  ⟨(social_enrichment_out_of_credits 5 1 noFaults 3 1 declineState declineRow
      sampleEnrichJob [] rfl rfl rfl rfl (by decide)).1,
   (social_enrichment_out_of_credits 5 1 noFaults 3 1 declineState declineRow
      sampleEnrichJob [] rfl rfl rfl rfl (by decide)).2.2.2.2.1,
   (social_enrichment_out_of_credits 5 1 noFaults 3 1 declineState declineRow
      sampleEnrichJob [] rfl rfl rfl rfl (by decide)).2.2.2.2.2.1⟩

/-- Helper: a cancellation signal out of the step loop always carries the job
row with status `cancelled` (the status the external cancel wrote, which is
exactly what made the worker raise the signal). -/
theorem runSteps_cancel_status (env : RunEnv) (spec : JobTypeSpec) (jobId total : Nat) :
    ∀ (rest : List ErrPolicy) (i : Nat) (job : SourcingJob) (steps : List JobProgress)
      (j : SourcingJob) (σ : List JobProgress),
      runSteps env spec jobId total rest i job steps = .cancelSignal j σ →
      j.status = .cancelled := by
  intro rest
  induction rest with
  | nil =>
      intro i job steps j σ h
      simp [runSteps] at h
  | cons p rest ih =>
      intro i job steps j σ h
      rw [runSteps] at h
      by_cases hc : env.cancelAt i = true
      · rw [if_pos hc] at h
        obtain ⟨hj, -⟩ := CoreResult.cancelSignal.injEq .. ▸ h
        rw [← hj]
      · rw [if_neg hc] at h
        cases hb : env.body i with
        | ok =>
            rw [hb] at h
            exact ih _ _ _ _ _ h
        | cancelSignal =>
            rw [hb] at h
            cases p with
            | markAndRaise =>
                obtain ⟨hj, -⟩ := CoreResult.cancelSignal.injEq .. ▸ h
                rw [← hj]
            | raiseUnmarked =>
                obtain ⟨hj, -⟩ := CoreResult.cancelSignal.injEq .. ▸ h
                rw [← hj]
            | markAndSwallow => exact ih _ _ _ _ _ h
        | raised m =>
            rw [hb] at h
            cases p with
            | markAndRaise => simp at h
            | raiseUnmarked => simp at h
            | markAndSwallow => exact ih _ _ _ _ _ h

/-- C6 (amended): for every job-type skeleton, whenever the cancellation
signal escapes the `try:` body, the handler rewrites every step of the job
still `pending`/`running` at that point to `failed` with message and
`error_message` "Cancelled by user" and `completed_at` set, leaves terminal
steps alone, and does not touch the job row, whose status remains
`cancelled` as the external cancel operation wrote it. A step whose own
`except Exception` observed the signal at an inner-loop check has already
been marked `failed` with the empty exception text by then, so it is not
rewritten and never receives "Cancelled by user" (see
`cancellation_counterexample`). -/
theorem cancellation_spec (spec : JobTypeSpec) (env : RunEnv) (job0 : SourcingJob)
    (steps0 : List JobProgress) (j : SourcingJob) (σ : List JobProgress)
    (h : runCore spec env job0 steps0 = .cancelSignal j σ) :
    runJob spec env job0 steps0 = (j, mark_job_cancelled env.now job0.id σ)
    ∧ j.status = .cancelled
    ∧ (∀ s ∈ σ, s.jobId = job0.id → (s.status = .pending ∨ s.status = .running) →
        ({ s with status := .failed, message := some cancelledByUser,
                  errorMessage := some cancelledByUser,
                  completedAt := some env.now } : JobProgress)
          ∈ mark_job_cancelled env.now job0.id σ)
    ∧ (∀ s ∈ mark_job_cancelled env.now job0.id σ, s.jobId = job0.id →
        s.status ≠ .pending ∧ s.status ≠ .running) := by
  refine ⟨by rw [runJob, h], ?_, ?_, ?_⟩
  · rw [runCore] at h
    by_cases hc : env.cancelAt 0 = true
    · rw [if_pos hc] at h
      obtain ⟨hj, -⟩ := CoreResult.cancelSignal.injEq .. ▸ h
      rw [← hj]
    · rw [if_neg hc] at h
      cases hp : env.preambleError with
      | some m => rw [hp] at h; simp at h
      | none =>
          rw [hp] at h
          cases hr : runSteps env spec job0.id spec.policies.length spec.policies 1
              (initJob env.now spec.policies.length job0) steps0 with
          | finished j' s' =>
              rw [hr] at h
              by_cases ha : spec.autoExport = true
              · simp [ha] at h
              · simp [ha] at h
          | jobError m j' s' => rw [hr] at h; simp at h
          | cancelSignal j' s' =>
              rw [hr] at h
              obtain ⟨hj, -⟩ := CoreResult.cancelSignal.injEq .. ▸ h
              rw [← hj]
              exact runSteps_cancel_status env spec _ _ _ _ _ _ _ _ hr
  · intro s hs hid hst
    simp only [mark_job_cancelled, List.mem_map]
    exact ⟨s, hs, by rw [if_pos ⟨hid, hst⟩]⟩
  · intro s hs hid
    simp only [mark_job_cancelled, List.mem_map] at hs
    obtain ⟨s0, hs0, rfl⟩ := hs
    by_cases hcond : s0.jobId = job0.id ∧ (s0.status = .pending ∨ s0.status = .running)
    · rw [if_pos hcond]
      exact ⟨by simp, by simp⟩
    · rw [if_neg hcond]
      rw [if_neg hcond] at hid
      constructor
      · intro hpend
        exact hcond ⟨hid, Or.inl hpend⟩
      · intro hrun
        exact hcond ⟨hid, Or.inr hrun⟩

/-- Witness for `cancellation_spec`: repository sourcing cancelled at the
check before step 2, with one completed step row already written. -/
theorem cancellation_spec_witness :
    (runJob repositorySourcingSpec cancelAt2Env sampleSourcingJob []).1.status =
      .cancelled
    ∧ (∀ s ∈ (runJob repositorySourcingSpec cancelAt2Env sampleSourcingJob []).2,
        s.jobId = 3 → s.status ≠ .pending ∧ s.status ≠ .running) := by
  have happ := cancellation_spec repositorySourcingSpec cancelAt2Env sampleSourcingJob []
    ({ update_job_progress (initJob 100 4 sampleSourcingJob) 1 4 with status := .cancelled })
    [update_progress_step 100 (update_progress_step 100
        (create_progress_step 3 1 (repositorySourcingSpec.stepName 1)) .running none)
      .completed (some "done")]
    (by rw [runCore]; rfl)
  refine ⟨?_, ?_⟩
  · rw [happ.1]
  · rw [happ.1]
    exact fun s hs hid => happ.2.2.2 s hs hid

/-- C6 counterexample: when the inner-loop check of sourcing step 3 (which
sits inside that step's `except Exception`) observes cancellation, the
handler marks the in-flight step `failed` with the empty `str(e)` — neither
`message` nor `error_message` is written — before re-raising, so the step
that was `running` at the observation ends without "Cancelled by user",
contradicting the claim for the periodic inner-loop check. -/
theorem cancellation_counterexample :
    (runJob repositorySourcingSpec innerCancelEnv sampleSourcingJob []).1.status =
      .cancelled
    ∧ ∃ s ∈ (runJob repositorySourcingSpec innerCancelEnv sampleSourcingJob []).2,
        s.stepNumber = 3 ∧ s.status = .failed ∧ s.message = none
        ∧ s.message ≠ some cancelledByUser ∧ s.errorMessage = none
        ∧ s.completedAt = some 100 := by
  refine ⟨by decide, by decide⟩

/-- Helper: if step `i` has the mark-and-re-raise policy, its body raises
`m`, and the loop reaches it (no cancellation observed, every earlier step
succeeds or fails under the swallow policy), then the loop ends in
`jobError m` and the produced step table contains step `i` marked `failed`
with `m` as its message and error message. -/
theorem runSteps_failure (env : RunEnv) (spec : JobTypeSpec) (jobId total : Nat)
    (i : Nat) (m : String) (hm : ¬m = "") (hbody : env.body i = .raised m) :
    ∀ (rest : List ErrPolicy) (idx : Nat) (job : SourcingJob) (steps : List JobProgress),
      idx ≤ i → i < idx + rest.length →
      rest[i - idx]? = some .markAndRaise →
      (∀ k, idx ≤ k → k ≤ i → env.cancelAt k = false) →
      (∀ jdx, idx ≤ jdx → jdx < i →
        env.body jdx = .ok ∨ (∃ mw, env.body jdx = .raised mw
          ∧ rest[jdx - idx]? = some .markAndSwallow)) →
      ∃ j σ, runSteps env spec jobId total rest idx job steps = .jobError m j σ
        ∧ ∃ s ∈ σ, s.jobId = jobId ∧ s.stepNumber = i ∧ s.status = .failed
          ∧ s.message = some m ∧ s.errorMessage = some m
          ∧ s.completedAt = some env.now := by
  intro rest
  induction rest with
  | nil =>
      intro idx job steps h2 h3 hp hc hr
      simp only [List.length_nil] at h3
      omega
  | cons p rest ih =>
      intro idx job steps h2 h3 hp hc hr
      have hcc : env.cancelAt idx = false := hc idx le_rfl h2
      rw [runSteps, if_neg (by simp [hcc])]
      by_cases hii : i = idx
      · subst hii
        rw [hbody]
        have hz : i - i = 0 := by omega
        rw [hz] at hp
        simp only [List.getElem?_cons_zero, Option.some.injEq] at hp
        subst hp
        refine ⟨job, _, rfl, ?_⟩
        refine ⟨update_progress_step env.now (update_progress_step env.now
            (create_progress_step jobId i (spec.stepName i)) .running none)
            .failed (some m),
          List.mem_append_right _ (List.mem_singleton_self _), ?_⟩
        simp [update_progress_step, create_progress_step, hm]
      · have hlt : idx < i := by omega
        have hstep : i - idx = (i - (idx + 1)) + 1 := by omega
        rw [hstep] at hp
        simp only [List.getElem?_cons_succ] at hp
        have hshift : ∀ jdx, idx + 1 ≤ jdx → jdx < i →
            env.body jdx = .ok ∨ (∃ mw, env.body jdx = .raised mw
              ∧ rest[jdx - (idx + 1)]? = some .markAndSwallow) := by
          intro jdx hj1 hj2
          rcases hr jdx (by omega) hj2 with hok2 | ⟨mw2, hmw2, hpw2⟩
          · exact Or.inl hok2
          · refine Or.inr ⟨mw2, hmw2, ?_⟩
            have hstep2 : jdx - idx = (jdx - (idx + 1)) + 1 := by omega
            rw [hstep2] at hpw2
            simpa using hpw2
        rcases hr idx le_rfl hlt with hok | ⟨mw, hmw, hpw⟩
        · rw [hok]
          exact ih (idx + 1) _ _ (by omega)
            (by simp only [List.length_cons] at h3; omega) hp
            (fun k hk1 hk2 => hc k (by omega) hk2) hshift
        · have hz : idx - idx = 0 := by omega
          rw [hz] at hpw
          simp only [List.getElem?_cons_zero, Option.some.injEq] at hpw
          subst hpw
          rw [hmw]
          exact ih (idx + 1) _ _ (by omega)
            (by simp only [List.length_cons] at h3; omega) hp
            (fun k hk1 hk2 => hc k (by omega) hk2) hshift

/-- C7 counterexample, two real runs. (a) In `process_social_enrichment`
with the search step raising "net down", the step is marked failed but the
exception is swallowed and the job finishes `completed`, not `failed`. (b)
In `process_repository_sourcing` with step 4 (queue enrichment) raising
"boom", the step is marked failed with "boom" but the job ends `failed`
with the `_check_auto_export` import error as its `error_message` — not the
step's text, which was never re-raised. Both contradict the claim that any
step exception re-raises and becomes the failed job's error message. -/
theorem step_failure_counterexample :
    ((runJob socialEnrichmentSpec step1FailEnv sampleEnrichJob []).1.status =
        .completed
      ∧ (runJob socialEnrichmentSpec step1FailEnv sampleEnrichJob []).1.status ≠
        .failed
      ∧ ∃ s ∈ (runJob socialEnrichmentSpec step1FailEnv sampleEnrichJob []).2,
          s.stepNumber = 1 ∧ s.status = .failed ∧ s.errorMessage = some "net down")
    ∧ ((runJob repositorySourcingSpec step4FailEnv sampleSourcingJob []).1.status =
        .failed
      ∧ (runJob repositorySourcingSpec step4FailEnv sampleSourcingJob
          []).1.errorMessage = some clayImportError
      ∧ (runJob repositorySourcingSpec step4FailEnv sampleSourcingJob
          []).1.errorMessage ≠ some "boom"
      ∧ ∃ s ∈ (runJob repositorySourcingSpec step4FailEnv sampleSourcingJob []).2,
          s.stepNumber = 4 ∧ s.status = .failed ∧ s.errorMessage = some "boom") := by
  refine ⟨⟨by decide, by decide, by decide⟩, by decide, by decide, by decide, by decide⟩

/-- C7 (amended): for every job-type skeleton, a step wrapped in the
mark-and-re-raise handler (repository sourcing steps 1-3, social enrichment
step 2, stargazer analysis steps 1-2) whose body raises an exception with
nonempty text `m` marks that step `failed` with `m` as the step's message
and error message and re-raises, and the enclosing handler fails the job:
`status='failed'`, `error_message = m`, `completed_at` set and committed.
The swallow-handler steps (sourcing step 4, stargazer step 3, enrichment
search step 1) instead mark the step failed without re-raising: the
enrichment job then completes, while sourcing/stargazer finalize and run the
`_check_auto_export` call, whose unconditional import error fails the job
with the import error text rather than the step's. -/
theorem step_failure_spec (spec : JobTypeSpec) (env : RunEnv)
    (job0 : SourcingJob) (steps0 : List JobProgress) (i : Nat) (m : String)
    (hm : ¬m = "")
    (hpre : env.preambleError = none)
    (hi1 : 1 ≤ i)
    (hpol : spec.policies[i - 1]? = some .markAndRaise)
    (hbody : env.body i = .raised m)
    (hnc : ∀ k, k ≤ i → env.cancelAt k = false)
    (hreach : ∀ jdx, 1 ≤ jdx → jdx < i →
        env.body jdx = .ok ∨ (∃ mw, env.body jdx = .raised mw
          ∧ spec.policies[jdx - 1]? = some .markAndSwallow)) :
    (runJob spec env job0 steps0).1.status = .failed
    ∧ (runJob spec env job0 steps0).1.errorMessage = some m
    ∧ (runJob spec env job0 steps0).1.completedAt = some env.now
    ∧ ∃ s ∈ (runJob spec env job0 steps0).2,
        s.jobId = job0.id ∧ s.stepNumber = i ∧ s.status = .failed
        ∧ s.message = some m ∧ s.errorMessage = some m
        ∧ s.completedAt = some env.now := by
  have hbound : i - 1 < spec.policies.length := by
    by_contra hge
    push_neg at hge
    rw [List.getElem?_eq_none hge] at hpol
    cases hpol
  obtain ⟨j, σ, heq, hstep⟩ := runSteps_failure env spec job0.id spec.policies.length
    i m hm hbody spec.policies 1 (initJob env.now spec.policies.length job0) steps0
    hi1 (by omega) hpol (fun k _ hk2 => hnc k hk2)
    (fun jdx h1 h2 => hreach jdx h1 h2)
  have hcore : runCore spec env job0 steps0 = .jobError m j σ := by
    rw [runCore, if_neg (by simp [hnc 0 (Nat.zero_le i)]), hpre, heq]
  have hrun : runJob spec env job0 steps0 = (failJob env.now m j, σ) := by
    rw [runJob, hcore]
  rw [hrun]
  exact ⟨rfl, rfl, rfl, hstep⟩

/-- Witness for `step_failure_spec`: social enrichment with the search step
downgraded and step 2 raising "boom". -/
theorem step_failure_spec_witness :
    (runJob socialEnrichmentSpec step2FailEnv sampleEnrichJob []).1.status = .failed
    ∧ (runJob socialEnrichmentSpec step2FailEnv sampleEnrichJob []).1.errorMessage =
        some "boom"
    ∧ ∃ s ∈ (runJob socialEnrichmentSpec step2FailEnv sampleEnrichJob []).2,
        s.jobId = sampleEnrichJob.id ∧ s.stepNumber = 2 ∧ s.status = .failed
        ∧ s.message = some "boom" ∧ s.errorMessage = some "boom"
        ∧ s.completedAt = some step2FailEnv.now := by
  have happ := step_failure_spec socialEnrichmentSpec step2FailEnv sampleEnrichJob [] 2
    "boom" (by decide) rfl (by omega) rfl rfl
    (fun _ _ => rfl)
    (fun jdx h1 h2 => by
      have hj : jdx = 1 := by omega
      subst hj
      exact Or.inr ⟨"net down", rfl, rfl⟩)
  exact ⟨happ.1, happ.2.1, happ.2.2.2⟩


/-- Helper: with a positive rate limit, no inner cancellation, and every
remaining push succeeding, the push loop finishes; it appends exactly one
success log per remaining contributor in order, and its trace extends by the
remaining sends interspersed with sleeps (a sleep only between consecutive
sends). -/
theorem pushLoop_all_ok (env : ClayEnv) (orgId : Option Nat) (jobId projId n : Nat)
    (rate : Int) (hrate : rate > 0) (hci : ∀ i, env.cancelInner i = false) :
    ∀ (rest : List Nat) (i : Nat) (st : PushLoopState),
      i + rest.length = n →
      (∀ k, i ≤ k → k < n → (env.pushResult k).1 = true) →
      ∃ st', pushLoop env orgId jobId projId n rate rest i st = .done st'
        ∧ st'.logs.map (fun l => l.contributorId) =
            st.logs.map (fun l => l.contributorId) ++ rest
        ∧ (∀ l ∈ st'.logs, l ∈ st.logs ∨
            (l.status = .success ∧ l.jobId = jobId ∧ l.projectId = projId
              ∧ l.orgId = orgId))
        ∧ st'.trace = st.trace ++
            List.intersperse .sleep ((List.range' i rest.length).map ClayEvent.send) := by
  intro rest
  induction rest with
  | nil =>
      intro i st hn hok
      exact ⟨st, rfl, by simp, fun l hl => Or.inl hl, by simp⟩
  | cons c rest ih =>
      intro i st hn hok
      simp only [List.length_cons] at hn
      have hoki : (env.pushResult i).1 = true := hok i le_rfl (by omega)
      rw [pushLoop, if_neg (by simp [hci i])]
      simp only [hoki, if_true]
      cases rest with
      | nil =>
          simp only [List.length_nil] at hn
          have hlast : i = n - 1 := by omega
          have hcond : ((i + 1) % 5 = 0 ∨ i = n - 1) := Or.inr hlast
          rw [if_pos hcond, if_neg (by intro h; omega)]
          rw [pushLoop]
          refine ⟨_, rfl, ?_, ?_, ?_⟩
          · simp
          · intro l hl
            simp only [List.mem_append, List.mem_singleton] at hl
            rcases hl with hl | hl
            · exact Or.inl hl
            · subst hl
              exact Or.inr ⟨rfl, rfl, rfl, rfl⟩
          · simp [List.range', List.intersperse]
      | cons c2 rest2 =>
          have hmid : i < n - 1 := by simp only [List.length_cons] at hn; omega
          have hsleep : (rate > 0 ∧ i < n - 1) := ⟨hrate, hmid⟩
          by_cases hcond : ((i + 1) % 5 = 0 ∨ i = n - 1)
          · rw [if_pos hcond, if_pos hsleep]
            obtain ⟨st', hdone, hlogs, hmem, htrace⟩ := ih (i + 1) _
              (by simp only [List.length_cons] at hn ⊢; omega)
              (fun k hk1 hk2 => hok k (by omega) hk2)
            refine ⟨st', hdone, ?_, ?_, ?_⟩
            · rw [hlogs]; simp
            · intro l hl
              rcases hmem l hl with hl2 | hl2
              · simp only [List.mem_append, List.mem_singleton] at hl2
                rcases hl2 with hl2 | hl2
                · exact Or.inl hl2
                · subst hl2
                  exact Or.inr ⟨rfl, rfl, rfl, rfl⟩
              · exact Or.inr hl2
            · rw [htrace]
              simp only [List.length_cons, List.range']
              simp [List.intersperse, List.append_assoc]
          · rw [if_neg hcond, if_pos hsleep]
            obtain ⟨st', hdone, hlogs, hmem, htrace⟩ := ih (i + 1) _
              (by simp only [List.length_cons] at hn ⊢; omega)
              (fun k hk1 hk2 => hok k (by omega) hk2)
            refine ⟨st', hdone, ?_, ?_, ?_⟩
            · rw [hlogs]; simp
            · intro l hl
              rcases hmem l hl with hl2 | hl2
              · simp only [List.mem_append, List.mem_singleton] at hl2
                rcases hl2 with hl2 | hl2
                · exact Or.inl hl2
                · subst hl2
                  exact Or.inr ⟨rfl, rfl, rfl, rfl⟩
              · exact Or.inr hl2
            · rw [htrace]
              simp only [List.length_cons, List.range']
              simp [List.intersperse, List.append_assoc]


/-- Intended behavior of the unreachable clay-push `try:` body
(`clay_push_try_body`), kept as evidence of what the spec describes: with a
non-empty resolved contributor list, a
positive rate limit, and every push succeeding writes exactly one
`clay_push_log` row with status `success` per contributor (in order, tied to
the job, project and org), produces a trace in which the rate-limit sleep
occurs exactly between consecutive sends (N contributors, N-1 sleeps, none
before the first or after the last), and finishes `completed`; a `clay_push`
job whose resolved contributor set is empty fails hard ("No valid leads
found" on the step, "No valid leads found for the given IDs" on the job)
instead of completing as a no-op. -/
theorem clay_push_body_spec (env : ClayEnv) (leadIds : List Nat) (projId : Nat)
    (orgId : Option Nat) (url : String) (rateLimitMs : Int)
    (contributorTable : List Nat) (job : SourcingJob) (steps : List JobProgress)
    (hnc : ∀ k, env.cancelAt k = false)
    (hci : ∀ i, env.cancelInner i = false)
    (hleads : leadIds ≠ [])
    (hurl : ¬url = "")
    (hrate : rateLimitMs > 0) :
    (contributorTable.filter (fun c => leadIds.contains c) ≠ [] →
      (∀ k, k < (contributorTable.filter (fun c => leadIds.contains c)).length →
        (env.pushResult k).1 = true) →
      (clay_push_try_body env leadIds (some projId) orgId (some url) rateLimitMs true
          contributorTable job steps).job.status = .completed
      ∧ (clay_push_try_body env leadIds (some projId) orgId (some url) rateLimitMs true
          contributorTable job steps).logs.map (fun l => l.contributorId) =
          contributorTable.filter (fun c => leadIds.contains c)
      ∧ (∀ l ∈ (clay_push_try_body env leadIds (some projId) orgId (some url)
            rateLimitMs true contributorTable job steps).logs,
          l.status = .success ∧ l.jobId = job.id ∧ l.projectId = projId
            ∧ l.orgId = orgId)
      ∧ (clay_push_try_body env leadIds (some projId) orgId (some url) rateLimitMs true
          contributorTable job steps).trace =
          List.intersperse .sleep ((List.range (contributorTable.filter
            (fun c => leadIds.contains c)).length).map ClayEvent.send))
    ∧ (contributorTable.filter (fun c => leadIds.contains c) = [] →
      (clay_push_try_body env leadIds (some projId) orgId (some url) rateLimitMs true
          contributorTable job steps).job.status = .failed
      ∧ (clay_push_try_body env leadIds (some projId) orgId (some url) rateLimitMs true
          contributorTable job steps).job.errorMessage =
          some "No valid leads found for the given IDs"
      ∧ (clay_push_try_body env leadIds (some projId) orgId (some url) rateLimitMs true
          contributorTable job steps).logs = []
      ∧ ∃ s ∈ (clay_push_try_body env leadIds (some projId) orgId (some url)
            rateLimitMs true contributorTable job steps).steps,
          s.stepNumber = 1 ∧ s.status = .failed
          ∧ s.message = some "No valid leads found"
          ∧ s.errorMessage = some "No valid leads found") := by
  have hle : leadIds.isEmpty = false := by
    cases leadIds with
    | nil => exact absurd rfl hleads
    | cons a as => rfl
  constructor
  · intro hC hok
    have hCe : (contributorTable.filter (fun c => leadIds.contains c)).isEmpty = false := by
      cases hfil : contributorTable.filter (fun c => leadIds.contains c) with
      | nil => exact absurd hfil hC
      | cons a as => rfl
    obtain ⟨st', hdone, hlogs, hmem, htrace⟩ :=
      pushLoop_all_ok env orgId job.id projId
        (contributorTable.filter (fun c => leadIds.contains c)).length rateLimitMs
        hrate hci (contributorTable.filter (fun c => leadIds.contains c)) 0
        ⟨[], [], 0, 0, update_progress_step env.now
          (create_progress_step job.id 2 "Pushing leads to Clay") .running none⟩
        (by omega) (fun k hk1 hk2 => hok k hk2)
    have hr : clay_push_try_body env leadIds (some projId) orgId (some url) rateLimitMs
        true contributorTable job steps =
        ⟨finalizeJob env.now (update_job_progress
            (update_job_progress { initJob env.now 2 job with totalSteps := 2 } 1 2) 2 2),
         steps ++ [update_progress_step env.now (update_progress_step env.now
             (create_progress_step job.id 1 "Preparing leads") .running none) .completed
             (some ("Found " ++ toString (contributorTable.filter
               (fun c => leadIds.contains c)).length ++ " leads to push")),
           update_progress_step env.now st'.step2 .completed
             (some ("Pushed " ++ toString st'.successCount ++ " leads to Clay" ++
               (if st'.failCount ≠ 0 then
                 " (" ++ toString st'.failCount ++ " failed)" else "")))],
         st'.logs, st'.trace⟩ := by
      simp only [clay_push_try_body, hnc, hle, hurl, hCe, hdone, Bool.false_eq_true,
        if_false, not_true, ite_false, ite_true, if_true]
    rw [hr]
    refine ⟨rfl, ?_, ?_, ?_⟩
    · rw [hlogs]; simp
    · intro l hl
      rcases hmem l hl with hl2 | hl2
      · simp at hl2
      · exact hl2
    · rw [htrace]
      simp [List.range_eq_range']
  · intro hC
    have hr : clay_push_try_body env leadIds (some projId) orgId (some url) rateLimitMs
        true contributorTable job steps =
        ⟨failJob env.now "No valid leads found for the given IDs"
            { initJob env.now 2 job with totalSteps := 2 },
         steps ++ [update_progress_step env.now (update_progress_step env.now
             (create_progress_step job.id 1 "Preparing leads") .running none) .failed
             (some "No valid leads found")], [], []⟩ := by
      simp only [clay_push_try_body, hnc, hle, hurl, hC, Bool.false_eq_true,
        if_false, not_true, ite_false, ite_true, if_true]
      simp [hC]
    rw [hr]
    refine ⟨rfl, rfl, rfl, ?_⟩
    refine ⟨update_progress_step env.now (update_progress_step env.now
        (create_progress_step job.id 1 "Preparing leads") .running none) .failed
        (some "No valid leads found"),
      List.mem_append_right _ (List.mem_singleton_self _), ?_⟩
    simp [update_progress_step, create_progress_step]


/-- Witness for `clay_push_body_spec`: 3 contributors with all pushes succeeding
(3 success logs, exactly 2 sleeps, job completed), and an empty resolved set
failing the job. -/
theorem clay_push_body_spec_witness :
    (clay_push_try_body clayEnvW [1, 2, 3] (some 4) (some 1)
        (some "https://clay.example") 200 true [1, 2, 3] sampleClayJob
        []).job.status = .completed
    ∧ (clay_push_try_body clayEnvW [1, 2, 3] (some 4) (some 1)
        (some "https://clay.example") 200 true [1, 2, 3] sampleClayJob []).logs.map
        (fun l => l.contributorId) = [1, 2, 3]
    ∧ (clay_push_try_body clayEnvW [1, 2, 3] (some 4) (some 1)
        (some "https://clay.example") 200 true [1, 2, 3] sampleClayJob []).trace =
        [.send 0, .sleep, .send 1, .sleep, .send 2]
    ∧ (clay_push_try_body clayEnvW [1, 2, 3] (some 4) (some 1)
        (some "https://clay.example") 200 true [9] sampleClayJob
        []).job.status = .failed := by
  have h1 := (clay_push_body_spec clayEnvW [1, 2, 3] 4 (some 1) "https://clay.example" 200
    [1, 2, 3] sampleClayJob [] (fun _ => rfl) (fun _ => rfl) (by decide) (by decide)
    (by decide)).1 (by decide) (fun k _ => rfl)
  have h2 := (clay_push_body_spec clayEnvW [1, 2, 3] 4 (some 1) "https://clay.example" 200
    [9] sampleClayJob [] (fun _ => rfl) (fun _ => rfl) (by decide) (by decide)
    (by decide)).2 (by decide)
  have hf : (([1, 2, 3] : List Nat).filter
      (fun c => ([1, 2, 3] : List Nat).contains c)) = [1, 2, 3] := by decide
  refine ⟨h1.1, ?_, ?_, h2.1⟩
  · have hl := h1.2.1
    rw [hf] at hl
    exact hl
  · have ht := h1.2.2.2
    rw [hf] at ht
    rw [ht]
    decide

/-- A further gap inside the unreachable trigger body: even in
`check_auto_export_body`, when the job's creator resolves no organization
the already-pushed dedup query is skipped entirely, so the body would
enqueue a `clay_push` job carrying contributor 7 although 7 already has a
`success` log row for the project. -/
theorem auto_export_body_no_org_dedup :
    check_auto_export_body (some cexProject) none (some "https://clay.example") [7]
      [cexLog] [] [] = some ⟨4, [7], none, "https://clay.example"⟩
    ∧ cexLog.projectId = cexProject.id ∧ cexLog.contributorId = 7
    ∧ cexLog.status = .success := by
  decide

/-- Intended behavior of the unreachable trigger body
(`check_auto_export_body`), kept as evidence of what the spec describes:
when an organization resolves for the job's creator, the body enqueues at
most one `clay_push` job carrying only project contributors without a
`success` log row for that org and project, and enqueues nothing once every
project contributor has such a row. -/
theorem auto_export_body_spec (project : ProjectRow) (o : Nat)
    (webhookUrl : Option String) (projectContributorIds : List Nat)
    (pushLogs : List ClayPushLog) (leadScores : List LeadScoreRow)
    (socialContexts : List SocialContextRow) :
    (∀ jb, check_auto_export_body (some project) (some o) webhookUrl
        projectContributorIds pushLogs leadScores socialContexts = some jb →
      ∀ c ∈ jb.leadIds, c ∈ projectContributorIds
        ∧ ¬∃ l ∈ pushLogs, l.orgId = some o ∧ l.projectId = project.id
            ∧ l.status = .success ∧ l.contributorId = c)
    ∧ ((∀ c ∈ projectContributorIds, ∃ l ∈ pushLogs, l.orgId = some o
          ∧ l.projectId = project.id ∧ l.status = .success ∧ l.contributorId = c) →
        check_auto_export_body (some project) (some o) webhookUrl
          projectContributorIds pushLogs leadScores socialContexts = none) := by
  classical
  have hsub : ∀ jb, check_auto_export_body (some project) (some o) webhookUrl
      projectContributorIds pushLogs leadScores socialContexts = some jb →
      ∀ c ∈ jb.leadIds,
        c ∈ projectContributorIds.dedup.filter (fun c =>
          ¬(alreadyPushedIds (some o) project.id pushLogs).contains c) := by
    intro jb h c hc
    simp only [check_auto_export_body] at h
    split at h
    · cases h
    · split at h
      · cases h
      · split at h
        · cases h
        · split at h
          · cases h
          · split at h
            · cases h
            · repeat' split at h
              all_goals try cases h
              all_goals
                first
                  | exact List.mem_of_mem_filter hc
                  | exact hc
  have hpushed : ∀ c l, l ∈ pushLogs → l.orgId = some o → l.projectId = project.id →
      l.status = .success → l.contributorId = c →
      (alreadyPushedIds (some o) project.id pushLogs).contains c = true := by
    intro c l hl hlo hlp hls hlc
    simp only [alreadyPushedIds, List.contains_iff_exists_mem_beq, List.mem_map]
    refine ⟨c, ⟨l, ?_, hlc⟩, by simp⟩
    rw [List.mem_filter]
    exact ⟨hl, by simp [hlo, hlp, hls]⟩
  constructor
  · intro jb h c hc
    have hmem := hsub jb h c hc
    rw [List.mem_filter] at hmem
    obtain ⟨hdedup, hnp⟩ := hmem
    refine ⟨List.mem_dedup.mp hdedup, ?_⟩
    rintro ⟨l, hl, hlo, hlp, hls, hlc⟩
    rw [decide_eq_true_eq] at hnp
    exact hnp (hpushed c l hl hlo hlp hls hlc)
  · intro hall
    have hempty : projectContributorIds.dedup.filter (fun c =>
        ¬(alreadyPushedIds (some o) project.id pushLogs).contains c) = [] := by
      rw [List.filter_eq_nil_iff]
      intro c hcd
      obtain ⟨l, hl, hlo, hlp, hls, hlc⟩ := hall c (List.mem_dedup.mp hcd)
      simp only [decide_eq_true_eq, not_not]
      exact hpushed c l hl hlo hlp hls hlc
    have hemptyb : (projectContributorIds.dedup.filter (fun c =>
        ¬(alreadyPushedIds (some o) project.id pushLogs).contains c)).isEmpty = true := by
      rw [hempty]
      rfl
    simp only [check_auto_export_body, hemptyb]
    split
    · rfl
    · split
      · rfl
      · split
        · rfl
        · split
          · rfl
          · rfl

/-- Witness for `auto_export_body_spec`: contributor 7 already pushed and 8 not —
the enqueued job carries only 8; with every contributor pushed, nothing is
enqueued. -/
theorem auto_export_body_spec_witness :
    check_auto_export_body (some cexProject) (some 1) (some "https://clay.example") [7, 8]
      [cexLog] [] [] = some ⟨4, [8], some 1, "https://clay.example"⟩
    ∧ (8 ∈ [7, 8] ∧ ¬∃ l ∈ [cexLog], l.orgId = some 1 ∧ l.projectId = cexProject.id
        ∧ l.status = .success ∧ l.contributorId = 8)
    ∧ check_auto_export_body (some cexProject) (some 1) (some "https://clay.example") [7]
      [cexLog] [] [] = none := by
  refine ⟨by decide, ?_, ?_⟩
  · exact (auto_export_body_spec cexProject 1 (some "https://clay.example") [7, 8] [cexLog]
      [] []).1 ⟨4, [8], some 1, "https://clay.example"⟩ (by decide) 8 (by decide)
  · exact (auto_export_body_spec cexProject 1 (some "https://clay.example") [7] [cexLog]
      [] []).2 (by decide)

/-- C10: a claimed job whose row is gone, or whose status is already
`cancelled` when `process_job` re-reads it before dispatch, is skipped: no
type-specific routine is invoked and neither the job table nor the progress
table is modified. -/
theorem process_job_skips_cancelled (db : List SourcingJob)
    (steps : List JobProgress) (jobId : Nat) :
    (db.find? (fun j => j.id = jobId) = none →
      process_job_dispatch db steps jobId = (.missing, db, steps))
    ∧ (∀ j, db.find? (fun j => j.id = jobId) = some j → j.status = .cancelled →
      process_job_dispatch db steps jobId = (.skippedCancelled, db, steps)) := by
  constructor
  · intro h
    simp [process_job_dispatch, h]
  · intro j hj hc
    simp [process_job_dispatch, hj, hc]

/-- Witness for `process_job_skips_cancelled`: a concrete cancelled row and
a missing row. -/
theorem process_job_skips_cancelled_witness :
    process_job_dispatch [sampleCancelledJob] [] 9 =
      (.skippedCancelled, [sampleCancelledJob], [])
    ∧ process_job_dispatch [] [] 9 = (.missing, [], []) :=
  ⟨(process_job_skips_cancelled [sampleCancelledJob] [] 9).2 sampleCancelledJob
      (by decide) rfl,
   (process_job_skips_cancelled [] [] 9).1 rfl⟩

/-- C8: no `clay_push` job can push, log, sleep or complete —
`process_clay_push` raises at entry on its unresolvable imports, so every
claimed (still `running`) clay_push job ends `failed` with the import error
text, with no progress step created, no `clay_push_log` row written and no
send or sleep event, contradicting the claimed success logs, N-1 sleeps and
`completed` outcome. -/
theorem clay_push_always_fails (now : Nat) (job : SourcingJob)
    (steps : List JobProgress) (logs : List ClayPushLog)
    (h : job.status = .running) :
    process_clay_push now job steps logs =
      (failJob now (clayServiceImportError.take 500) job, steps, logs, [])
    ∧ (process_clay_push now job steps logs).1.status = .failed
    ∧ (process_clay_push now job steps logs).1.status ≠ .completed
    ∧ (process_clay_push now job steps logs).2.1 = steps
    ∧ (process_clay_push now job steps logs).2.2.1 = logs
    ∧ (process_clay_push now job steps logs).2.2.2 = [] := by
  refine ⟨by simp [process_clay_push, h], ?_, ?_, ?_, ?_, ?_⟩ <;>
    simp [process_clay_push, h, failJob]

/-- Witness for `clay_push_always_fails`: a concrete claimed clay_push
job. -/
theorem clay_push_always_fails_witness :
    process_clay_push 50 (markRunning 50 sampleClayJob) [] [] =
      (failJob 50 (clayServiceImportError.take 500) (markRunning 50 sampleClayJob),
       [], [], []) :=
  (clay_push_always_fails 50 (markRunning 50 sampleClayJob) [] [] rfl).1

/-- C9: the auto-export trigger as written never enqueues anything — its
entry import raises for every input, the jobs table is unchanged (so no
contributor, deduplicated or not, is ever carried by a new `clay_push`
job), and the just-completed sourcing/stargazer job is flipped to `failed`
with the import error text; concretely, a repository-sourcing run in which
every step succeeds still ends `failed`. -/
theorem auto_export_never_enqueues (now : Nat) (job : SourcingJob)
    (jobsDb : List SourcingJob) :
    (check_auto_export now job jobsDb).2 = jobsDb
    ∧ (check_auto_export now job jobsDb).1.status = .failed
    ∧ (check_auto_export now job jobsDb).1.errorMessage = some clayImportError
    ∧ (runJob repositorySourcingSpec allOkEnv sampleSourcingJob []).1.status = .failed
    ∧ (runJob repositorySourcingSpec allOkEnv sampleSourcingJob []).1.errorMessage =
        some clayImportError :=
  ⟨rfl, rfl, rfl, by decide, by decide⟩
